import Mathlib

/-!
Verification of AlbumHub against its natural-language specification.

Each Python function relevant to the claims is shallowly embedded as an
executable Lean definition over `List Char` / `String` / explicit record
states.  Machine-level details that the claims do not depend on are noted
in the doc comment of the corresponding definition.
-/

/-! ## Python string primitives -/

/-- Code points treated as whitespace by Python `str.strip` (ASCII
whitespace, the C0 separator block, NEL, NBSP and the Unicode space
characters). -/
def py_space_codes : List Nat :=
  [9, 10, 11, 12, 13, 28, 29, 30, 31, 32, 133, 160,
   0x1680, 0x2000, 0x2001, 0x2002, 0x2003, 0x2004, 0x2005, 0x2006,
   0x2007, 0x2008, 0x2009, 0x200A, 0x2028, 0x2029, 0x202F, 0x205F, 0x3000]

/-- Whether `str.strip` removes the character. -/
def is_py_space (c : Char) : Bool := c.toNat ∈ py_space_codes

/-- Remove trailing characters satisfying `p`. -/
def drop_trail (p : Char → Bool) (l : List Char) : List Char :=
  (l.reverse.dropWhile p).reverse

/-- Python `str.strip()` on a character list: remove leading and trailing
whitespace. -/
def py_strip_list (l : List Char) : List Char :=
  drop_trail is_py_space (l.dropWhile is_py_space)

/-- Python `str.strip()`. -/
def py_strip (s : String) : String := String.mk (py_strip_list s.data)

/-- Lower-case one character (ASCII range; the country names this is
applied to are ASCII). -/
def py_lower_char (c : Char) : Char :=
  if 'A' ≤ c ∧ c ≤ 'Z' then Char.ofNat (c.toNat + 32) else c

/-- Python `str.lower()` on ASCII text. -/
def py_lower (s : String) : String := String.mk (s.data.map py_lower_char)

/-! ## `DataProcessor.clean_imported_data` (src/processing/data_cleaner.py)

The cleaner repeatedly applies Python's `html.unescape` until a fixed
point, then substitutes decimal and hex numeric character references,
strips C0/C1 control characters, and trims whitespace.

`html.unescape` (Python standard library) is modelled as follows: the
scanner replaces every occurrence of the regular expression
`&#[0-9]+;?|&#[xX][0-9a-fA-F]+;?|&[^\t\n\f <&#;]\x7b1,32\x7d;?`
by the decoded reference.  Named references are looked up in the HTML5
table, trying the whole match first and then successively shorter
prefixes of length at least 2 (CPython `html._replace_charref`); the
table here is restricted to the core entities (`amp`, `lt`, `gt`,
`quot`, `apos`, `nbsp`), which is the fragment the theorems below
exercise.  Numeric references decode through `chr`, with U+FFFD for
surrogates and out-of-range values; CPython's extra remapping table for
C1 references is elided (no theorem below depends on numeric
references). -/

/-- Named HTML entities (name including any final `;`, paired with the
decoded character).  The names without `;` are the legacy semicolon-less
forms that `html.unescape` also accepts. -/
def named_table : List (List Char × Char) :=
  [(['a', 'm', 'p', ';'], '&'), (['a', 'm', 'p'], '&'),
   (['l', 't', ';'], '<'), (['l', 't'], '<'),
   (['g', 't', ';'], '>'), (['g', 't'], '>'),
   (['q', 'u', 'o', 't', ';'], '"'), (['q', 'u', 'o', 't'], '"'),
   (['a', 'p', 'o', 's', ';'], '\''), (['n', 'b', 's', 'p', ';'], '\xa0')]

/-- Association lookup in `named_table`. -/
def table_get (s : List Char) : Option Char :=
  (named_table.find? (fun p => p.1 = s)).map Prod.snd

/-- Characters allowed inside a named reference by the `html.unescape`
scanner: everything except tab, newline, form feed, space, `<`, `&`,
`#` and `;`. -/
def is_name_char (c : Char) : Bool :=
  ¬ (c = '\t' ∨ c = '\n' ∨ c = '\x0c' ∨ c = ' ' ∨ c = '<' ∨ c = '&' ∨
     c = '#' ∨ c = ';')

/-- Take up to `n` name characters from the front of the list. -/
def take_name : Nat → List Char → (List Char × List Char)
  | 0, l => ([], l)
  | _ + 1, [] => ([], [])
  | n + 1, c :: r =>
    if is_name_char c then
      let p := take_name n r
      (c :: p.1, p.2)
    else
      ([], c :: r)

/-- Leading decimal digits. -/
def take_digits : List Char → (List Char × List Char)
  | [] => ([], [])
  | c :: r =>
    if c.isDigit then
      let p := take_digits r
      (c :: p.1, p.2)
    else
      ([], c :: r)

/-- Leading hexadecimal digits. -/
def take_hex_digits : List Char → (List Char × List Char)
  | [] => ([], [])
  | c :: r =>
    if c.isDigit ∨ ('a' ≤ c ∧ c ≤ 'f') ∨ ('A' ≤ c ∧ c ≤ 'F') then
      let p := take_hex_digits r
      (c :: p.1, p.2)
    else
      ([], c :: r)

/-- Numeric value of a decimal digit string. -/
def dec_val (l : List Char) : Nat :=
  l.foldl (fun a c => a * 10 + (c.toNat - 48)) 0

/-- Numeric value of a hex digit. -/
def hex_digit_val (c : Char) : Nat :=
  if c.isDigit then c.toNat - 48
  else if 'a' ≤ c ∧ c ≤ 'f' then c.toNat - 87
  else c.toNat - 55

/-- Numeric value of a hex digit string. -/
def hex_val (l : List Char) : Nat :=
  l.foldl (fun a c => a * 16 + hex_digit_val c) 0

/-- Decode a numeric character reference value (surrogates and
out-of-range values become U+FFFD, as in `html.unescape`). -/
def num_chr (n : Nat) : Char :=
  if n > 0x10FFFF ∨ (0xD800 ≤ n ∧ n ≤ 0xDFFF) then '�'
  else Char.ofNat n

/-- Longest-name lookup: try shorter and shorter leading parts of `s`
(length at least 2), as CPython does after the full string misses. -/
def ref_scan (s : List Char) : Nat → Option (List Char)
  | 0 => none
  | 1 => none
  | x + 2 =>
    match table_get (s.take (x + 2)) with
    | some c => some (c :: s.drop (x + 2))
    | none => ref_scan s (x + 1)

/-- Decode the text of a named reference (name characters plus optional
final `;`): whole-string lookup first, then longest leading part. -/
def ref_repl (s : List Char) : Option (List Char) :=
  match table_get s with
  | some c => some [c]
  | none => ref_scan s (s.length - 1)

/-- Try to parse one character reference right after a `&`.  Returns the
replacement text and the remaining input, or `none` when the regular
expression does not match here. -/
def parse_ref (rest : List Char) : Option (List Char × List Char) :=
  match rest with
  | '#' :: r1 =>
    match r1 with
    | 'x' :: r2 =>
      let p := take_hex_digits r2
      if p.1 = [] then none
      else
        match p.2 with
        | ';' :: r3 => some ([num_chr (hex_val p.1)], r3)
        | _ => some ([num_chr (hex_val p.1)], p.2)
    | 'X' :: r2 =>
      let p := take_hex_digits r2
      if p.1 = [] then none
      else
        match p.2 with
        | ';' :: r3 => some ([num_chr (hex_val p.1)], r3)
        | _ => some ([num_chr (hex_val p.1)], p.2)
    | _ =>
      let p := take_digits r1
      if p.1 = [] then none
      else
        match p.2 with
        | ';' :: r3 => some ([num_chr (dec_val p.1)], r3)
        | _ => some ([num_chr (dec_val p.1)], p.2)
  | _ =>
    let p := take_name 32 rest
    if p.1 = [] then none
    else
      match p.2 with
      | ';' :: r2 =>
        match ref_repl (p.1 ++ [';']) with
        | some repl => some (repl, r2)
        | none => none
      | _ =>
        match ref_repl p.1 with
        | some repl => some (repl, p.2)
        | none => none

/-- One pass of `html.unescape` over the input (fuel-indexed scanner;
every step consumes at least one character, so fuel equal to the length
of the input is always sufficient). -/
def unescape_go : Nat → List Char → List Char
  | 0, l => l
  | _ + 1, [] => []
  | f + 1, c :: rest =>
    if c = '&' then
      match parse_ref rest with
      | some (repl, rem) => repl ++ unescape_go f rem
      | none => '&' :: unescape_go f rest
    else c :: unescape_go f rest

/-- Python `html.unescape`, modelled on the entity fragment above. -/
def html_unescape (l : List Char) : List Char := unescape_go l.length l

/-- The `while text != prev` loop of `clean_imported_data`: iterate
`html.unescape` until a fixed point (fuel-indexed; decoding strictly
shortens the text, so fuel equal to the length plus one suffices). -/
def unescape_loop : Nat → List Char → List Char
  | 0, l => l
  | f + 1, l =>
    let t := html_unescape l
    if t = l then l else unescape_loop f t

/-- Is the character a C0 or C1 control character (the class
`[\x00-\x1f\x7f-\x9f]` stripped by `clean_imported_data`)? -/
def is_ctrl (c : Char) : Bool :=
  c.toNat ≤ 0x1f ∨ (0x7f ≤ c.toNat ∧ c.toNat ≤ 0x9f)

/-- `re.sub(r'&#(\d+);', chr ∘ int, text)`: replace every decimal
numeric reference (this regular expression requires the final `;`).
Python `chr` raises for values above 0x10FFFF; such references cannot
survive the preceding unescape fixed point, and the fallback here is
`Char.ofNat`.  Fuel-indexed scanner, fuel = input length suffices. -/
def sub_dec_go : Nat → List Char → List Char
  | 0, l => l
  | _ + 1, [] => []
  | f + 1, c :: rest =>
    if c = '&' then
      match rest with
      | '#' :: r1 =>
        let p := take_digits r1
        match p.1, p.2 with
        | [], _ => '&' :: sub_dec_go f rest
        | _, ';' :: r3 => Char.ofNat (dec_val p.1) :: sub_dec_go f r3
        | _, _ => '&' :: sub_dec_go f rest
      | _ => '&' :: sub_dec_go f rest
    else c :: sub_dec_go f rest

/-- `re.sub(r'&#x([0-9a-fA-F]+);', chr ∘ int16, text)`: replace every
hex numeric reference (lowercase `x` only, final `;` required, as in the
source pattern). -/
def sub_hex_go : Nat → List Char → List Char
  | 0, l => l
  | _ + 1, [] => []
  | f + 1, c :: rest =>
    if c = '&' then
      match rest with
      | '#' :: 'x' :: r1 =>
        let p := take_hex_digits r1
        match p.1, p.2 with
        | [], _ => '&' :: sub_hex_go f rest
        | _, ';' :: r3 => Char.ofNat (hex_val p.1) :: sub_hex_go f r3
        | _, _ => '&' :: sub_hex_go f rest
      | _ => '&' :: sub_hex_go f rest
    else c :: sub_hex_go f rest

/-- `DataProcessor.clean_imported_data` on a string value (missing/NaN
inputs, which the Python code maps to `''` before this pipeline, are
represented by the empty string). -/
def clean_imported_data (s : String) : String :=
  let t := unescape_loop (s.data.length + 1) s.data
  let t := sub_dec_go t.length t
  let t := sub_hex_go t.length t
  let t := t.filter (fun c => ¬ is_ctrl c)
  String.mk (py_strip_list t)

/-! ## `DataProcessor._split_artists` (src/processing/data_cleaner.py)

`re.split(r'\s*(?:,|&|and)\s*', artist_str)` followed by stripping each
part and dropping the empty ones.  The pattern has no word boundaries:
it matches a maximal run of whitespace, then one of `,`, `&` or the
literal character sequence `and`, then a maximal run of whitespace.
Because no whitespace character can begin one of the three
alternatives, the regex engine's backtracking never changes the
greedy-match outcome, so the matcher below is exact. -/

/-- Python `\s` for this pattern (same class as `str.strip`
whitespace). -/
def is_re_space (c : Char) : Bool := is_py_space c

/-- Try to match `\s*(?:,|&|and)\s*` at the current position, returning
the input remaining after the match. -/
def split_match (l : List Char) : Option (List Char) :=
  match l.dropWhile is_re_space with
  | ',' :: r => some (r.dropWhile is_re_space)
  | '&' :: r => some (r.dropWhile is_re_space)
  | 'a' :: 'n' :: 'd' :: r => some (r.dropWhile is_re_space)
  | _ => none

/-- `re.split` scanner: walk left to right, cutting at each leftmost
match (fuel-indexed; every match consumes at least one character). -/
def re_split_go : Nat → List Char → List Char → List (List Char)
  | 0, acc, l => [acc.reverse ++ l]
  | _ + 1, acc, [] => [acc.reverse]
  | f + 1, acc, c :: rest =>
    match split_match (c :: rest) with
    | some rest2 => acc.reverse :: re_split_go f [] rest2
    | none => re_split_go f (c :: acc) rest

/-- `DataProcessor._split_artists`: split, strip each part, drop the
empty parts. -/
def split_artists (s : String) : List String :=
  ((re_split_go (s.data.length + 1) [] s.data).map
      (fun p => String.mk (py_strip_list p))).filter (fun p => p ≠ "")

/-! ## `DatabaseManager` (src/database/db_manager.py)

The SQLite database is modelled as an explicit state: the `albums` and
`tracklist` tables as row lists, the AUTOINCREMENT counters, and the
connection's `foreign_keys` pragma.  SQLite semantics relevant here:
declared `ON DELETE CASCADE` actions fire only when the connection has
executed `PRAGMA foreign_keys = ON`; a fresh `sqlite3` connection
defaults to OFF, and `DatabaseManager.connect` issues no such pragma. -/

/-- A row of the `albums` table (columns as created by
`create_tables`). -/
structure AlbumRow where
  id : Nat
  artist : String
  title : String
  rating : String
  release_date : String
  genres : String
  styles : String
  label : String
  country : String
  format : String
  cover_art : String
  discogs_id : String
  deriving DecidableEq, Repr

/-- A row of the `tracklist` table. -/
structure TrackRow where
  id : Nat
  album_id : Nat
  track_number : Int
  title : String
  duration_sec : Int
  deriving DecidableEq, Repr

/-- The database state seen through the application's connection. -/
structure DBState where
  fk_enabled : Bool
  albums : List AlbumRow
  tracklist : List TrackRow
  next_album_id : Nat
  next_track_id : Nat
  deriving DecidableEq, Repr

/-- `DatabaseManager.connect`: a fresh `sqlite3` connection; no pragma
is executed, so foreign-key enforcement is at its sqlite3 default,
OFF. -/
def connect_state (albums : List AlbumRow) (tracklist : List TrackRow)
    (na nt : Nat) : DBState :=
  { fk_enabled := false, albums := albums, tracklist := tracklist,
    next_album_id := na, next_track_id := nt }

/-- One entry of an album record's `TracklistDurations` list. -/
structure TrackDur where
  track_number : Int
  title : String
  duration_sec : Int
  deriving DecidableEq, Repr

/-- The album dictionary passed to `save_album`.  Field values model
`str(...)` of the stored Python values; a missing key or a falsy value
(`None`, `''`) is modelled by `""`, matching the `album.get(..., '')`
and `... or ''` accesses in the source. -/
structure AlbumRec where
  discogs_id : String
  artist : String
  title : String
  rating : String
  release_date : String
  discogs_year : String
  genres : String
  styles : String
  label : String
  country : String
  format : String
  cover_art : String
  tracklist_durations : List TrackDur
  deriving DecidableEq, Repr

/-- The admission filter of `save_album`:
`str(album.get('DiscogsID', '') or '').strip()`. -/
def effective_discogs_id (rec : AlbumRec) : String := py_strip rec.discogs_id

/-- `DatabaseManager.save_album`.  When the stripped DiscogsID is empty
the call returns immediately; otherwise one row is inserted into
`albums` (the PRAGMA-based column filter is the identity here, since
the assembled record's keys are exactly the table's columns), and one
`tracklist` row is inserted per entry of `TracklistDurations`, keyed by
the new album id (`cursor.lastrowid`). -/
def save_album (st : DBState) (rec : AlbumRec) : DBState :=
  if effective_discogs_id rec = "" then st
  else
    let release_date :=
      if rec.release_date ≠ "" then rec.release_date
      else if rec.discogs_year ≠ "" then rec.discogs_year
      else ""
    let row : AlbumRow :=
      { id := st.next_album_id,
        artist := py_strip rec.artist,
        title := rec.title,
        rating := py_strip rec.rating,
        release_date := release_date,
        genres := rec.genres,
        styles := rec.styles,
        label := rec.label,
        country := rec.country,
        format := rec.format,
        cover_art := rec.cover_art,
        discogs_id := effective_discogs_id rec }
    let tracks := (rec.tracklist_durations.enumFrom st.next_track_id).map
      (fun p =>
        { id := p.1, album_id := st.next_album_id,
          track_number := p.2.track_number, title := p.2.title,
          duration_sec := p.2.duration_sec : TrackRow })
    { st with
      albums := st.albums ++ [row],
      tracklist := st.tracklist ++ tracks,
      next_album_id := st.next_album_id + 1,
      next_track_id := st.next_track_id + rec.tracklist_durations.length }

/-- `DELETE FROM albums WHERE id = ?` executed on the application's
connection.  The declared `ON DELETE CASCADE` on `tracklist.album_id`
removes the referencing tracklist rows only if the connection has
foreign-key enforcement on. -/
def delete_album (st : DBState) (aid : Nat) : DBState :=
  { st with
    albums := st.albums.filter (fun a => a.id ≠ aid),
    tracklist :=
      if st.fk_enabled then st.tracklist.filter (fun t => t.album_id ≠ aid)
      else st.tracklist }

/-- `DatabaseManager.import_csv_data` (success path):
`df.to_sql(..., if_exists='replace')` drops the `albums` table and
recreates it from the CSV rows.  With foreign-key enforcement on, the
implicit delete of the dropped rows would cascade into `tracklist`;
with it off (the application's connections) `tracklist` is untouched. -/
def import_csv_data (st : DBState) (rows : List AlbumRow) : DBState :=
  { st with
    albums := rows,
    tracklist :=
      if st.fk_enabled then
        st.tracklist.filter
          (fun t => ¬ st.albums.any (fun a => a.id = t.album_id))
      else st.tracklist }

/-! ## `RegionRatings` (src/analytics/region_ratings.py) -/

/-- The `REGIONS` set of super-region names. -/
def REGIONS : List String :=
  ["North America", "Europe", "Asia", "Oceania", "South America",
   "Africa", "Other"]

/-- `RegionRatings._map_country_to_region`: lowercase the country and
look it up in the hard-coded sets; anything unrecognized maps to
`"Other"`. -/
def map_country_to_region (country : String) : String :=
  let key := py_lower country
  if key ∈ ["usa", "united states", "canada", "mexico"] then
    "North America"
  else if key ∈ ["uk", "united kingdom", "germany", "france", "italy",
      "spain", "netherlands", "sweden", "norway", "switzerland"] then
    "Europe"
  else if key ∈ ["china", "japan", "south korea", "india", "taiwan"] then
    "Asia"
  else if key ∈ ["australia", "new zealand"] then "Oceania"
  else if key ∈ ["brazil", "argentina", "chile", "colombia"] then
    "South America"
  else if key ∈ ["south africa", "nigeria", "egypt"] then "Africa"
  else "Other"

/-- First-occurrence deduplication (the distinct group keys of a pandas
`groupby`, whose alphabetical ordering of groups only permutes rows and
is not modelled). -/
def first_dedup : List String → List String :=
  go []
where
  /-- Accumulating worker: keep a value when it has not been seen. -/
  go (seen : List String) : List String → List String
    | [] => []
    | a :: t => if a ∈ seen then go seen t else a :: go (a :: seen) t

/-- The labels of the DataFrame returned by `RegionRatings.fetch_data`,
starting from the cleaned per-row `(Country, Rating)` pairs (after the
multi-country split/explode): strip each country, drop empty ones, then
concatenate the region-aggregation labels with the country-aggregation
labels, the latter excluding any country equal to a region name.  The
final sort by average rating only permutes rows and is not modelled;
the theorems below are about label membership and multiplicity. -/
def fetch_data_labels (rows : List (String × ℚ)) : List String :=
  let countries := (rows.map (fun r => py_strip r.1)).filter (fun c => c ≠ "")
  let region_labels := first_dedup (countries.map map_country_to_region)
  let country_labels :=
    (first_dedup countries).filter (fun c => c ∉ REGIONS)
  region_labels ++ country_labels

/-! ## `RankerTab` tab-change behaviour (src/gui/ranker_tab.py) -/

/-- Which notebook tab the `<<NotebookTabChanged>>` event reports as now
selected (`event.widget.select()`): the ranker tab or any other tab. -/
inductive SelectedTab where
  | ranker : SelectedTab
  | other : SelectedTab
  deriving DecidableEq, Repr

/-- The tournament state held by `RankerTab` (widget state plus the
merge-sort coroutine fields).  The live generator object is modelled by
the id list it was created over. -/
structure RankerState where
  start_enabled : Bool
  save_enabled : Bool
  progress_text : String
  progress_value : Nat
  photo_refs : List Nat
  sort_gen : Option (List String)
  current_match : Option (String × String)
  comparisons_done : Nat
  total_comparisons : Nat
  deriving DecidableEq, Repr

/-- `RankerTab.reset_ranking_state`: start button enabled, save button
disabled, progress display reset, photo refs cleared, and all
merge-sort state back to its constructor-time values. -/
def reset_ranking_state (_ : RankerState) : RankerState :=
  { start_enabled := true, save_enabled := false,
    progress_text := "Ready", progress_value := 0, photo_refs := [],
    sort_gen := none, current_match := none,
    comparisons_done := 0, total_comparisons := 0 }

/-- `RankerTab.on_tab_changed`: the handler fires on every notebook tab
change and resets the ranking state exactly when the tab now selected
is the ranker tab (`cur is self.ranker_tab`). -/
def on_tab_changed (st : RankerState) (selected : SelectedTab) :
    RankerState :=
  if selected = SelectedTab.ranker then reset_ranking_state st else st

/-! ## `RankerTab.start_ranking_game` / `_mergesort` (src/gui/ranker_tab.py)

The merge-sort coroutine yields one pair per user comparison; the user's
answers are modelled by a stream `f : Nat → Bool` (`true` = the left
album was chosen, anything else picks the right one), indexed by the
running `comparisons_done` counter.  Both functions are fuel-indexed so
that they are structurally recursive and kernel-evaluable; fuel equal to
the list length is always sufficient (each recursion level at least
halves the list, and each merge step consumes one element). -/

/-- The merge loop of `_mergesort`: while both sides are nonempty, ask
the user (consuming one stream position per comparison) and move the
chosen head; then append the leftovers.  Returns the merged list, the
number of comparisons asked, and the next stream position. -/
def merge_loop (f : Nat → Bool) :
    Nat → List String → List String → Nat → (List String × Nat × Nat)
  | _, [], ys, k => (ys, 0, k)
  | _, x :: xs, [], k => (x :: xs, 0, k)
  | 0, xs, ys, k => (xs ++ ys, 0, k)
  | fuel + 1, x :: xs, y :: ys, k =>
    if f k then
      let r := merge_loop f fuel xs (y :: ys) (k + 1)
      (x :: r.1, r.2.1 + 1, r.2.2)
    else
      let r := merge_loop f fuel (x :: xs) ys (k + 1)
      (y :: r.1, r.2.1 + 1, r.2.2)

/-- `RankerTab._mergesort`: lists of length at most one are returned
as-is; otherwise split at `len // 2`, sort both halves, and merge,
threading the user-choice stream position through in coroutine order. -/
def mergesort_game (f : Nat → Bool) :
    Nat → List String → Nat → (List String × Nat × Nat)
  | 0, l, k => (l, 0, k)
  | fuel + 1, l, k =>
    if l.length ≤ 1 then (l, 0, k)
    else
      let mid := l.length / 2
      let a := mergesort_game f fuel (l.take mid) k
      let b := mergesort_game f fuel (l.drop mid) a.2.2
      let m := merge_loop f (a.1.length + b.1.length) a.1 b.1 b.2.2
      (m.1, a.2.1 + b.2.1 + m.2.1, m.2.2)

/-- Total comparisons the tournament will ask for at most, as computed
by `start_ranking_game` and installed as the progress bar maximum:
`n*ceil(log2(n)) - n + 1` for `n > 1`, else `0`.  (`math.ceil(math.log2 n)`
is `Nat.clog 2 n`; the subtraction is on Python ints, and for `n > 1`
the value is positive, so the natural-number form `n*L + 1 - n` is
exact.) -/
def total_comparisons_max (n : Nat) : Nat :=
  if 1 < n then n * Nat.clog 2 n + 1 - n else 0

/-- The comparison count of a full tournament over `ids`, under user
behaviour `f`: the number of `record_choice` calls the coroutine
consumes before `StopIteration` delivers the final ordering. -/
def game_comparisons (f : Nat → Bool) (ids : List String) : Nat :=
  (mergesort_game f ids.length ids 0).2.1

/-! ## `RankingSystem` (src/ranking/ranking_system.py)

Ratings are Python ints; the Elo-like update computes the expected score
in floating point and truncates the adjustment with `int(...)`.  The
arithmetic is modelled over `ℝ` (the idealization of IEEE doubles used
throughout this development), with `int(...)` as truncation toward
zero.  The rankings dict is modelled as an association list with
distinct keys, in insertion order. -/

/-- Python `int(x)` on a float: truncation toward zero. -/
noncomputable def py_int_trunc (x : ℝ) : ℤ :=
  if 0 ≤ x then ⌊x⌋ else -⌊-x⌋

/-- Python `round(x)` on a float: banker's rounding (round half to
even).  Modelled from the spec: the specification's claimed update
formula uses `round`, while the code uses `int` truncation; this
definition exists to state that claim. -/
noncomputable def py_round (x : ℝ) : ℤ :=
  if Int.fract x = 1 / 2 then
    (if ⌊x⌋ % 2 = 0 then ⌊x⌋ else ⌊x⌋ + 1)
  else round x

/-- `expected_winner = 1 / (1 + 10 ** ((loser_rating - winner_rating) / 400))`. -/
noncomputable def expected_winner (wr lr : ℤ) : ℝ :=
  1 / (1 + (10 : ℝ) ^ (((lr : ℝ) - (wr : ℝ)) / 400))

/-- The winner's adjustment: `int(k * (1 - expected_winner))`, `k = 30`. -/
noncomputable def winner_delta (wr lr : ℤ) : ℤ :=
  py_int_trunc (30 * (1 - expected_winner wr lr))

/-- The loser's adjustment: `int(k * (0 - expected_loser))` with
`expected_loser = 1 - expected_winner`. -/
noncomputable def loser_delta (wr lr : ℤ) : ℤ :=
  py_int_trunc (30 * (0 - (1 - expected_winner wr lr)))

/-- The rankings dict: album id ↦ rating, insertion-ordered, keys
distinct. -/
def Rankings : Type := List (Int × Int)

/-- Dict read `self.rankings[i]`: the value stored at key `i` (`none`
models the `KeyError` on a missing id). -/
def rankings_get : Rankings → Int → Option Int
  | [], _ => none
  | p :: t, i => if p.1 = i then some p.2 else rankings_get t i

/-- Dict update `self.rankings[i] += d`: add `d` to the value stored at
key `i`. -/
def rankings_add : Rankings → Int → Int → Rankings
  | [], _, _ => []
  | p :: t, i, d =>
    (if p.1 = i then (p.1, p.2 + d) else p) :: rankings_add t i d

/-- First-occurrence deduplication of ids (the key set of the dict
comprehension in `RankingSystem.initialize`). -/
def id_dedup : List Int → List Int :=
  go []
where
  /-- Accumulating worker: keep an id when it has not been seen. -/
  go (seen : List Int) : List Int → List Int
    | [] => []
    | a :: t => if a ∈ seen then go seen t else a :: go (a :: seen) t

/-- `RankingSystem.initialize`: every album id gets rating 1000
(duplicate ids collapse onto one dict key). -/
def init_rankings (albums : List Int) : Rankings :=
  (id_dedup albums).map (fun a => (a, 1000))

/-- `RankingSystem.record_result`: read both ratings, compute both
adjustments from the values read, then apply the winner's adjustment
followed by the loser's.  `none` models the `KeyError` on an id absent
from the rankings. -/
noncomputable def record_result (rs : Rankings) (winner_id loser_id : Int) :
    Option Rankings :=
  match rankings_get rs winner_id, rankings_get rs loser_id with
  | some wr, some lr =>
    some (rankings_add (rankings_add rs winner_id (winner_delta wr lr))
            loser_id (loser_delta wr lr))
  | _, _ => none

/-- A sequence of `record_result` calls. -/
noncomputable def record_results (rs : Rankings) :
    List (Int × Int) → Option Rankings
  | [] => some rs
  | (w, l) :: rest =>
    match record_result rs w l with
    | some rs2 => record_results rs2 rest
    | none => none

/-- The total of all ratings held by the system. -/
def sum_ratings (rs : Rankings) : Int :=
  (rs.map Prod.snd).sum

/-! ## Helper lemmas: stripping and scanning -/

theorem dropWhile_head_false {p : Char → Bool} :
    ∀ {l : List Char} {a : Char} {t : List Char},
      List.dropWhile p l = a :: t → p a = false := by
  intro l
  induction l with
  | nil => intro a t h; simp [List.dropWhile] at h
  | cons c r ih =>
    intro a t h
    rw [List.dropWhile_cons] at h
    split at h
    · exact ih h
    · cases h
      next hc => simpa using hc

theorem mem_drop_trail {p : Char → Bool} {l : List Char} {c : Char}
    (h : c ∈ drop_trail p l) : c ∈ l := by
  unfold drop_trail at h
  rw [List.mem_reverse] at h
  exact List.mem_reverse.mp ((List.dropWhile_sublist _).subset h)

theorem mem_py_strip_list {l : List Char} {c : Char}
    (h : c ∈ py_strip_list l) : c ∈ l :=
  (List.dropWhile_sublist _).subset (mem_drop_trail h)

theorem dropWhile_append_cons {p : Char → Bool} {a : Char}
    (hpa : p a = false) (u v : List Char) :
    List.dropWhile p (u ++ a :: v) = List.dropWhile p u ++ a :: v := by
  induction u with
  | nil => simp [List.dropWhile_cons, hpa]
  | cons c r ih =>
    rw [List.cons_append, List.dropWhile_cons, List.dropWhile_cons]
    by_cases hc : p c
    · simp [hc, ih]
    · simp [hc]

theorem drop_trail_cons {p : Char → Bool} {a : Char}
    (hpa : p a = false) (t : List Char) :
    drop_trail p (a :: t) = a :: drop_trail p t := by
  unfold drop_trail
  rw [List.reverse_cons, dropWhile_append_cons hpa t.reverse []]
  rw [List.reverse_append]
  rfl

theorem drop_trail_idem (p : Char → Bool) (l : List Char) :
    drop_trail p (drop_trail p l) = drop_trail p l := by
  unfold drop_trail
  rw [List.reverse_reverse, List.dropWhile_idempotent]

theorem dropWhile_drop_trail_dropWhile (p : Char → Bool) (l : List Char) :
    List.dropWhile p (drop_trail p (List.dropWhile p l)) =
      drop_trail p (List.dropWhile p l) := by
  cases hu : List.dropWhile p l with
  | nil => simp [drop_trail]
  | cons a t =>
    have hpa : p a = false := dropWhile_head_false hu
    rw [drop_trail_cons hpa, List.dropWhile_cons, hpa]
    simp

theorem py_strip_list_idem (l : List Char) :
    py_strip_list (py_strip_list l) = py_strip_list l := by
  unfold py_strip_list
  rw [dropWhile_drop_trail_dropWhile, drop_trail_idem]

/-! ## C1 -/

/-- Sample album record with a valid (whitespace-padded) DiscogsID. -/
def sample_rec : AlbumRec :=
  { discogs_id := " 42 ", artist := " The Band ", title := "T",
    rating := " 5 ", release_date := "", discogs_year := "1970",
    genres := "Rock", styles := "", label := "L", country := "UK",
    format := "LP", cover_art := "",
    tracklist_durations := [{ track_number := 1, title := "t1",
                              duration_sec := 200 }] }

/-- Sample freshly connected database state. -/
def sample_db : DBState := connect_state [] [] 1 1

/-- C1: `save_album` adds a row to `albums` iff the record's DiscogsID,
converted to a string and stripped, is non-empty; with an empty stripped
DiscogsID the call is a no-op on the whole database state (zero rows
added to `albums` and to `tracklist`). -/
theorem claim_C1 (st : DBState) (rec : AlbumRec) :
    ((save_album st rec).albums.length = st.albums.length + 1 ↔
      effective_discogs_id rec ≠ "") ∧
    (effective_discogs_id rec = "" → save_album st rec = st) := by
  by_cases h : effective_discogs_id rec = ""
  · refine ⟨?_, fun _ => by simp [save_album, h]⟩
    simp [save_album, h]
  · refine ⟨?_, fun h2 => absurd h2 h⟩
    simp [save_album, h]

/-- Witness for C1: a record with DiscogsID `" 42 "` is persisted, one
with DiscogsID `"  "` leaves the state untouched. -/
theorem claim_C1_witness :
    ((save_album sample_db sample_rec).albums.length =
        sample_db.albums.length + 1) ∧
      save_album sample_db { sample_rec with discogs_id := "  " } =
        sample_db :=
  ⟨(claim_C1 sample_db sample_rec).1.mpr (by decide),
   (claim_C1 sample_db { sample_rec with discogs_id := "  " }).2
     (by decide)⟩

/-! ## C2 -/

/-- An album row with id 1. -/
def orphan_album : AlbumRow :=
  { id := 1, artist := "A", title := "T", rating := "5",
    release_date := "1970", genres := "", styles := "", label := "",
    country := "", format := "", cover_art := "", discogs_id := "42" }

/-- A tracklist row referencing album id 1. -/
def orphan_track : TrackRow :=
  { id := 1, album_id := 1, track_number := 1, title := "t",
    duration_sec := 100 }

/-- C2 (divergence witness): on the application's connection
(`connect` never turns the `foreign_keys` pragma on, and sqlite3
defaults to off, so the declared `ON DELETE CASCADE` never fires),
deleting the album with id 1 leaves its tracklist row behind as an
orphan, contrary to the claim that no orphaned tracklist rows remain. -/
theorem claim_C2 :
    (delete_album (connect_state [orphan_album] [orphan_track] 2 2)
        1).albums = [] ∧
    (delete_album (connect_state [orphan_album] [orphan_track] 2 2)
        1).tracklist = [orphan_track] ∧
    orphan_track.album_id = 1 := by decide

/-! ## C10 -/

/-- C10: on the application's connection (foreign-key enforcement off),
`import_csv_data` replaces the whole `albums` table by the CSV rows and
leaves every `tracklist` row unchanged. -/
theorem claim_C10 (st : DBState) (rows : List AlbumRow)
    (h : st.fk_enabled = false) :
    (import_csv_data st rows).albums = rows ∧
    (import_csv_data st rows).tracklist = st.tracklist := by
  simp [import_csv_data, h]

/-- Witness for C10 at a concrete populated state. -/
theorem claim_C10_witness :
    (import_csv_data (connect_state [orphan_album] [orphan_track] 2 2)
        []).albums = [] ∧
    (import_csv_data (connect_state [orphan_album] [orphan_track] 2 2)
        []).tracklist = [orphan_track] :=
  claim_C10 (connect_state [orphan_album] [orphan_track] 2 2) [] rfl

/-! ## C6 -/

/-- C6 counterexample: the split pattern has no word boundaries, so the
literal characters `and` split the single word `"Sandy"` — the claim's
"never inside a longer word" is false on the code. -/
theorem claim_C6_counterexample :
    split_artists "Sandy" = ["S", "y"] ∧
      split_artists "Sandy" ≠ ["Sandy"] := by decide

/-- C6 (amended): `_split_artists` splits on comma, ampersand, or the
character sequence `and` (case-sensitive) wherever it occurs — including
inside longer words — together with adjacent whitespace; each part is
trimmed and empty parts are dropped; the spec's example evaluates as
claimed. -/
theorem claim_C6 :
    split_artists "Simon & Garfunkel, The War and Treaty" =
      ["Simon", "Garfunkel", "The War", "Treaty"] ∧
    ∀ s : String, ∀ p ∈ split_artists s, p ≠ "" ∧ py_strip p = p := by
  refine ⟨by decide, ?_⟩
  intro s p hp
  unfold split_artists at hp
  rw [List.mem_filter] at hp
  obtain ⟨hmem, hne⟩ := hp
  refine ⟨by simpa using hne, ?_⟩
  rw [List.mem_map] at hmem
  obtain ⟨q, _, rfl⟩ := hmem
  show py_strip (String.mk (py_strip_list q)) = String.mk (py_strip_list q)
  unfold py_strip
  rw [show (String.mk (py_strip_list q)).data = py_strip_list q from rfl]
  rw [py_strip_list_idem]

/-! ## C7 -/

/-- C7 (divergence witness): the region mapper lowercases its input and
never recognizes a region's own name, so a `Country` value `"Europe"`
maps to the `"Other"` region; with only `Country="Europe"` rows the
fetched labels are exactly `["Other"]` and the label `"Europe"` never
appears — contradicting the claim (and the class docstring) that such a
value appears exactly once aggregated as the region `"Europe"`.  The
`"usa"`/unrecognized-country parts of the claim do hold. -/
theorem claim_C7 :
    fetch_data_labels [("Europe", 5)] = ["Other"] ∧
    "Europe" ∉ fetch_data_labels [("Europe", 5)] ∧
    map_country_to_region "Europe" = "Other" ∧
    map_country_to_region "USA" = "North America" ∧
    map_country_to_region "usa" = "North America" ∧
    map_country_to_region "Atlantis" = "Other" := by decide

/-! ## C8 -/

/-- A ranker-tab state captured mid-tournament. -/
def busy_ranker_state : RankerState :=
  { start_enabled := false, save_enabled := true,
    progress_text := "3/17 completed", progress_value := 3,
    photo_refs := [1], sort_gen := some ["7", "9", "11"],
    current_match := some ("7", "9"), comparisons_done := 3,
    total_comparisons := 17 }

/-- C8 counterexample: a tab-change event that switches away from the
ranker tab (the newly selected tab is another tab) leaves the
in-progress tournament state completely untouched, so the claim that
switching away resets the state is false on the code. -/
theorem claim_C8_counterexample :
    on_tab_changed busy_ranker_state SelectedTab.other =
        busy_ranker_state ∧
      busy_ranker_state ≠ reset_ranking_state busy_ranker_state := by
  decide

/-- C8 (amended): the tab-change handler resets all in-progress
tournament state exactly when the newly selected tab IS the Ranker tab
(i.e. on switching to it); switching away leaves the state unchanged.
The reset restores every field to its initial value: buttons
(start enabled, save disabled), progress display (`"Ready"`, bar at 0),
photo references cleared, and the merge-sort coroutine state
(generator, current match, both comparison counters) cleared. -/
theorem claim_C8 (st : RankerState) :
    on_tab_changed st SelectedTab.ranker = reset_ranking_state st ∧
    on_tab_changed st SelectedTab.other = st ∧
    (reset_ranking_state st).start_enabled = true ∧
    (reset_ranking_state st).save_enabled = false ∧
    (reset_ranking_state st).progress_text = "Ready" ∧
    (reset_ranking_state st).progress_value = 0 ∧
    (reset_ranking_state st).photo_refs = [] ∧
    (reset_ranking_state st).sort_gen = none ∧
    (reset_ranking_state st).current_match = none ∧
    (reset_ranking_state st).comparisons_done = 0 ∧
    (reset_ranking_state st).total_comparisons = 0 := by
  refine ⟨rfl, rfl, rfl, rfl, rfl, rfl, rfl, rfl, rfl, rfl, rfl⟩

/-! ## C3 -/

/-- C3 counterexample: cleaning is not idempotent.  Stripping control
characters can create a new HTML entity: `"&\x00amp;"` cleans to
`"&amp;"` (the NUL keeps the first pass from seeing an entity), and
cleaning that output again decodes it to `"&"`. -/
theorem claim_C3_counterexample :
    clean_imported_data (clean_imported_data "&\x00amp;") ≠
        clean_imported_data "&\x00amp;" ∧
      clean_imported_data "&\x00amp;" = "&amp;" ∧
      clean_imported_data "&amp;" = "&" := by decide

theorem unescape_go_amp_free :
    ∀ (f : Nat) (l : List Char), (∀ c ∈ l, c ≠ '&') →
      unescape_go f l = l := by
  intro f
  induction f with
  | zero => intro l _; rfl
  | succ f ih =>
    intro l h
    cases l with
    | nil => rfl
    | cons c rest =>
      have hc : c ≠ '&' := h c (List.mem_cons_self c rest)
      simp only [unescape_go, if_neg hc]
      rw [ih rest (fun d hd => h d (List.mem_cons_of_mem c hd))]

theorem unescape_loop_amp_free :
    ∀ (f : Nat) (l : List Char), (∀ c ∈ l, c ≠ '&') →
      unescape_loop f l = l := by
  intro f l h
  cases f with
  | zero => rfl
  | succ f =>
    simp [unescape_loop, html_unescape, unescape_go_amp_free _ _ h]

theorem sub_dec_go_amp_free :
    ∀ (f : Nat) (l : List Char), (∀ c ∈ l, c ≠ '&') →
      sub_dec_go f l = l := by
  intro f
  induction f with
  | zero => intro l _; rfl
  | succ f ih =>
    intro l h
    cases l with
    | nil => rfl
    | cons c rest =>
      have hc : c ≠ '&' := h c (List.mem_cons_self c rest)
      simp only [sub_dec_go, if_neg hc]
      rw [ih rest (fun d hd => h d (List.mem_cons_of_mem c hd))]

theorem sub_hex_go_amp_free :
    ∀ (f : Nat) (l : List Char), (∀ c ∈ l, c ≠ '&') →
      sub_hex_go f l = l := by
  intro f
  induction f with
  | zero => intro l _; rfl
  | succ f ih =>
    intro l h
    cases l with
    | nil => rfl
    | cons c rest =>
      have hc : c ≠ '&' := h c (List.mem_cons_self c rest)
      simp only [sub_hex_go, if_neg hc]
      rw [ih rest (fun d hd => h d (List.mem_cons_of_mem c hd))]

theorem clean_eq_of_amp_free (l : List Char) (hl : ∀ c ∈ l, c ≠ '&') :
    clean_imported_data (String.mk l) =
      String.mk (py_strip_list (l.filter (fun c => ¬ is_ctrl c))) := by
  simp only [clean_imported_data]
  rw [unescape_loop_amp_free _ _ hl]
  rw [sub_dec_go_amp_free _ _ hl]
  rw [sub_hex_go_amp_free _ _ hl]

/-- C3 (amended): `clean_imported_data` is idempotent on every value
containing no ampersand.  (It is not idempotent in general: stripping
control characters can splice the pieces of a value into a fresh HTML
entity, as the counterexample shows.) -/
theorem claim_C3 (s : String) (h : ∀ c ∈ s.data, c ≠ '&') :
    clean_imported_data (clean_imported_data s) = clean_imported_data s := by
  obtain ⟨l⟩ := s
  have hl : ∀ c ∈ l, c ≠ '&' := h
  have hy_amp :
      ∀ c ∈ py_strip_list (l.filter (fun c => ¬ is_ctrl c)), c ≠ '&' :=
    fun c hc => hl c (List.mem_filter.mp (mem_py_strip_list hc)).1
  rw [clean_eq_of_amp_free l hl, clean_eq_of_amp_free _ hy_amp]
  have hfix :
      (py_strip_list (l.filter (fun c => ¬ is_ctrl c))).filter
          (fun c => ¬ is_ctrl c) =
        py_strip_list (l.filter (fun c => ¬ is_ctrl c)) :=
    List.filter_eq_self.mpr
      (fun c hc => (List.mem_filter.mp (mem_py_strip_list hc)).2)
  rw [hfix, py_strip_list_idem]

/-- Witness for C3 on an ampersand-free value. -/
theorem claim_C3_witness :
    clean_imported_data (clean_imported_data " a  b ") =
      clean_imported_data " a  b " :=
  claim_C3 " a  b " (by decide)

/-! ## C4 -/

theorem merge_loop_count_le (f : Nat → Bool) :
    ∀ (fuel : Nat) (xs ys : List String) (k : Nat),
      (merge_loop f fuel xs ys k).2.1 ≤ xs.length + ys.length - 1 := by
  intro fuel
  induction fuel with
  | zero =>
    intro xs ys k
    cases xs with
    | nil => simp [merge_loop]
    | cons x xt =>
      cases ys with
      | nil => simp [merge_loop]
      | cons y yt => simp [merge_loop]
  | succ fuel ih =>
    intro xs ys k
    cases xs with
    | nil => simp [merge_loop]
    | cons x xt =>
      cases ys with
      | nil => simp [merge_loop]
      | cons y yt =>
        simp only [merge_loop]
        by_cases hf : f k
        · have := ih xt (y :: yt) (k + 1)
          simp only [if_pos hf]
          simp only [List.length_cons] at this ⊢
          omega
        · have := ih (x :: xt) yt (k + 1)
          simp only [if_neg hf]
          simp only [List.length_cons] at this ⊢
          omega

theorem merge_loop_length (f : Nat → Bool) :
    ∀ (fuel : Nat) (xs ys : List String) (k : Nat),
      (merge_loop f fuel xs ys k).1.length = xs.length + ys.length := by
  intro fuel
  induction fuel with
  | zero =>
    intro xs ys k
    cases xs with
    | nil => simp [merge_loop]
    | cons x xt =>
      cases ys with
      | nil => simp [merge_loop]
      | cons y yt => simp [merge_loop]; omega
  | succ fuel ih =>
    intro xs ys k
    cases xs with
    | nil => simp [merge_loop]
    | cons x xt =>
      cases ys with
      | nil => simp [merge_loop]
      | cons y yt =>
        simp only [merge_loop]
        by_cases hf : f k
        · have := ih xt (y :: yt) (k + 1)
          simp only [if_pos hf]
          simp only [List.length_cons] at this ⊢
          omega
        · have := ih (x :: xt) yt (k + 1)
          simp only [if_neg hf]
          simp only [List.length_cons] at this ⊢
          omega

theorem mergesort_game_length (f : Nat → Bool) :
    ∀ (fuel : Nat) (l : List String) (k : Nat),
      (mergesort_game f fuel l k).1.length = l.length := by
  intro fuel
  induction fuel with
  | zero => intro l k; rfl
  | succ fuel ih =>
    intro l k
    simp only [mergesort_game]
    by_cases h : l.length ≤ 1
    · simp [h]
    · simp only [if_neg h]
      rw [merge_loop_length, ih, ih, List.length_take, List.length_drop]
      omega

theorem total_recurrence (n : Nat) (h : 2 ≤ n) :
    total_comparisons_max (n / 2) + total_comparisons_max (n - n / 2) +
      (n - 1) ≤ total_comparisons_max n := by
  rcases Nat.lt_or_ge n 4 with h4 | h4
  · interval_cases n <;>
      norm_num [total_comparisons_max, Nat.clog]
  · have ha2 : 2 ≤ n / 2 := by omega
    have hb2 : 2 ≤ n - n / 2 := by omega
    have hLn : Nat.clog 2 n = Nat.clog 2 (n - n / 2) + 1 := by
      rw [Nat.clog_of_two_le (by norm_num) h]
      have hq : (n + 2 - 1) / 2 = n - n / 2 := by omega
      rw [hq]
    have hLab : Nat.clog 2 (n / 2) ≤ Nat.clog 2 (n - n / 2) :=
      Nat.clog_mono_right 2 (by omega)
    have hLa1 : 1 ≤ Nat.clog 2 (n / 2) := Nat.clog_pos (by norm_num) ha2
    have hLb1 : 1 ≤ Nat.clog 2 (n - n / 2) := Nat.clog_pos (by norm_num) hb2
    simp only [total_comparisons_max,
      if_pos (show 1 < n / 2 by omega),
      if_pos (show 1 < n - n / 2 by omega),
      if_pos (show 1 < n by omega)]
    rw [hLn]
    have hsplit : n * (Nat.clog 2 (n - n / 2) + 1) =
        (n / 2) * Nat.clog 2 (n - n / 2) + n / 2 +
          ((n - n / 2) * Nat.clog 2 (n - n / 2) + (n - n / 2)) := by
      have h3 : n / 2 + (n - n / 2) = n := by omega
      calc n * (Nat.clog 2 (n - n / 2) + 1)
          = (n / 2 + (n - n / 2)) * (Nat.clog 2 (n - n / 2) + 1) := by
            rw [h3]
        _ = (n / 2) * Nat.clog 2 (n - n / 2) + n / 2 +
              ((n - n / 2) * Nat.clog 2 (n - n / 2) + (n - n / 2)) := by
            ring
    rw [hsplit]
    have hmono : (n / 2) * Nat.clog 2 (n / 2) ≤
        (n / 2) * Nat.clog 2 (n - n / 2) :=
      Nat.mul_le_mul_left _ hLab
    have e1 : n / 2 ≤ (n / 2) * Nat.clog 2 (n / 2) := by
      conv_lhs => rw [← Nat.mul_one (n / 2)]
      exact Nat.mul_le_mul_left _ hLa1
    have e2 : n - n / 2 ≤ (n - n / 2) * Nat.clog 2 (n - n / 2) := by
      conv_lhs => rw [← Nat.mul_one (n - n / 2)]
      exact Nat.mul_le_mul_left _ hLb1
    generalize hX : (n / 2) * Nat.clog 2 (n / 2) = X at e1 hmono ⊢
    generalize hX2 : (n / 2) * Nat.clog 2 (n - n / 2) = X2 at hmono ⊢
    generalize hY : (n - n / 2) * Nat.clog 2 (n - n / 2) = Y at e2 ⊢
    omega

theorem mergesort_game_count_le (f : Nat → Bool) :
    ∀ (fuel : Nat) (l : List String) (k : Nat), l.length ≤ fuel →
      (mergesort_game f fuel l k).2.1 ≤
        total_comparisons_max l.length := by
  intro fuel
  induction fuel with
  | zero =>
    intro l k _
    exact Nat.zero_le _
  | succ fuel ih =>
    intro l k hf
    simp only [mergesort_game]
    by_cases h1 : l.length ≤ 1
    · simp [h1]
    · simp only [if_neg h1]
      have hn : 2 ≤ l.length := by omega
      have hta : (l.take (l.length / 2)).length = l.length / 2 := by
        rw [List.length_take]; omega
      have htb : (l.drop (l.length / 2)).length =
          l.length - l.length / 2 := List.length_drop _ _
      have ha := ih (l.take (l.length / 2)) k (by omega)
      have hb := ih (l.drop (l.length / 2))
        ((mergesort_game f fuel (l.take (l.length / 2)) k).2.2)
        (by rw [htb]; omega)
      rw [mergesort_game_length, mergesort_game_length, hta, htb]
      have hm := merge_loop_count_le f
        (l.length / 2 + (l.length - l.length / 2))
        (mergesort_game f fuel (l.take (l.length / 2)) k).1
        (mergesort_game f fuel (l.drop (l.length / 2))
          (mergesort_game f fuel (l.take (l.length / 2)) k).2.2).1
        (mergesort_game f fuel (l.drop (l.length / 2))
          (mergesort_game f fuel (l.take (l.length / 2)) k).2.2).2.2
      rw [mergesort_game_length, mergesort_game_length, hta, htb] at hm
      rw [hta] at ha
      rw [htb] at hb
      have hrec := total_recurrence l.length hn
      omega

/-- C4: for every album list of more than one element,
`start_ranking_game` sets the progress bar maximum to
`n*ceil(log2 n) - n + 1` (17 for n = 8), and the merge-sort coroutine
asks the user for at most that many `record_choice` decisions before
the final ordering is produced, whatever the user answers. -/
theorem claim_C4 (ids : List String) (f : Nat → Bool)
    (h : 1 < ids.length) :
    total_comparisons_max ids.length =
      ids.length * Nat.clog 2 ids.length + 1 - ids.length ∧
    total_comparisons_max 8 = 17 ∧
    game_comparisons f ids ≤ total_comparisons_max ids.length := by
  refine ⟨by simp [total_comparisons_max, h], ?_, ?_⟩
  · norm_num [total_comparisons_max, Nat.clog]
  · exact mergesort_game_count_le f ids.length ids 0 le_rfl

/-- Witness for C4 on an eight-album tournament where the user always
picks the left album. -/
theorem claim_C4_witness :
    game_comparisons (fun _ => true)
        ["a", "b", "c", "d", "e", "f", "g", "h"] ≤
      total_comparisons_max
        (["a", "b", "c", "d", "e", "f", "g", "h"] : List String).length :=
  (claim_C4 ["a", "b", "c", "d", "e", "f", "g", "h"] (fun _ => true)
    (by decide)).2.2

/-! ## C5 and C9: Elo arithmetic -/

theorem py_int_trunc_neg (x : ℝ) : py_int_trunc (-x) = -py_int_trunc x := by
  unfold py_int_trunc
  rcases lt_trichotomy x 0 with h | h | h
  · rw [if_pos (by linarith : (0:ℝ) ≤ -x), if_neg (by linarith : ¬ (0:ℝ) ≤ x)]
    ring
  · subst h
    norm_num
  · rw [if_neg (by linarith : ¬ (0:ℝ) ≤ -x), if_pos (by linarith : (0:ℝ) ≤ x)]
    rw [neg_neg]

theorem loser_delta_neg (wr lr : Int) :
    loser_delta wr lr = -winner_delta wr lr := by
  unfold loser_delta winner_delta
  have h : (30 : ℝ) * (0 - (1 - expected_winner wr lr)) =
      -(30 * (1 - expected_winner wr lr)) := by ring
  rw [h, py_int_trunc_neg]

theorem expected_winner_self (r : Int) : expected_winner r r = 1 / 2 := by
  unfold expected_winner
  have h : (((r : ℝ)) - (r : ℝ)) / 400 = 0 := by ring
  rw [h, Real.rpow_zero]
  norm_num

theorem winner_delta_equal : winner_delta 1000 1000 = 15 := by
  unfold winner_delta
  rw [expected_winner_self]
  have h2 : (30 : ℝ) * (1 - 1 / 2) = 15 := by norm_num
  rw [h2]
  unfold py_int_trunc
  rw [if_pos (by norm_num : (0:ℝ) ≤ 15)]
  norm_num

theorem loser_delta_equal : loser_delta 1000 1000 = -15 := by
  rw [loser_delta_neg, winner_delta_equal]

theorem expected_winner_1400_1000 : expected_winner 1400 1000 = 10 / 11 := by
  unfold expected_winner
  have h1 : ((((1000:Int)) : ℝ) - (((1400:Int)) : ℝ)) / 400 =
      ((-1 : ℤ) : ℝ) := by norm_num
  rw [h1, Real.rpow_intCast]
  norm_num

theorem floor_30_11 : ⌊(30 / 11 : ℝ)⌋ = 2 := by
  rw [Int.floor_eq_iff]
  norm_num

theorem winner_delta_1400_1000 : winner_delta 1400 1000 = 2 := by
  unfold winner_delta
  rw [expected_winner_1400_1000]
  have h2 : (30 : ℝ) * (1 - 10 / 11) = 30 / 11 := by norm_num
  rw [h2]
  unfold py_int_trunc
  rw [if_pos (by norm_num : (0:ℝ) ≤ 30 / 11)]
  exact floor_30_11

theorem py_round_30_11 : py_round (30 / 11 : ℝ) = 3 := by
  unfold py_round
  rw [Int.fract, floor_30_11]
  rw [if_neg (by norm_num)]
  rw [round_eq, Int.floor_eq_iff]
  norm_num

theorem rankings_get_add_same :
    ∀ (rs : Rankings) (i d : Int),
      rankings_get (rankings_add rs i d) i =
        (rankings_get rs i).map (fun v => v + d) := by
  intro rs
  induction rs with
  | nil => intro i d; rfl
  | cons p t ih =>
    intro i d
    by_cases hp : p.1 = i
    · simp [rankings_add, rankings_get, hp]
    · simp [rankings_add, rankings_get, hp, ih i d]

theorem rankings_get_add_other :
    ∀ (rs : Rankings) (i j d : Int), j ≠ i →
      rankings_get (rankings_add rs i d) j = rankings_get rs j := by
  intro rs
  induction rs with
  | nil => intro i j d _; rfl
  | cons p t ih =>
    intro i j d hij
    have hij2 : ¬ i = j := fun h => hij h.symm
    by_cases hp : p.1 = i
    · have hpj : ¬ p.1 = j := by
        rw [hp]; exact hij2
      simp [rankings_add, rankings_get, hp, hpj, hij2, ih i j d hij]
    · by_cases hpj : p.1 = j
      · simp [rankings_add, rankings_get, hp, hpj, hij]
      · simp [rankings_add, rankings_get, hp, hpj, hij, ih i j d hij]

theorem rankings_add_keys :
    ∀ (rs : Rankings) (i d : Int),
      (rankings_add rs i d).map Prod.fst = rs.map Prod.fst := by
  intro rs
  induction rs with
  | nil => intro i d; rfl
  | cons p t ih =>
    intro i d
    by_cases hp : p.1 = i <;> simp [rankings_add, hp, ih i d]

theorem rankings_get_mem :
    ∀ (rs : Rankings) (i v : Int), rankings_get rs i = some v →
      i ∈ rs.map Prod.fst := by
  intro rs
  induction rs with
  | nil => intro i v h; simp [rankings_get] at h
  | cons p t ih =>
    intro i v h
    by_cases hp : p.1 = i
    · simp [hp]
    · rw [rankings_get, if_neg hp] at h
      simp only [List.map_cons, List.mem_cons]
      exact Or.inr (ih i v h)

theorem rankings_add_not_mem :
    ∀ (rs : Rankings) (i d : Int), i ∉ rs.map Prod.fst →
      rankings_add rs i d = rs := by
  intro rs
  induction rs with
  | nil => intro i d _; rfl
  | cons p t ih =>
    intro i d h
    simp only [List.map_cons, List.mem_cons] at h
    push_neg at h
    have hp : ¬ p.1 = i := fun hq => h.1 hq.symm
    simp [rankings_add, hp, ih i d h.2]

theorem sum_rankings_add :
    ∀ (rs : Rankings) (i d : Int), (rs.map Prod.fst).Nodup →
      i ∈ rs.map Prod.fst →
      sum_ratings (rankings_add rs i d) = sum_ratings rs + d := by
  intro rs
  induction rs with
  | nil => intro i d _ hm; simp at hm
  | cons p t ih =>
    intro i d hnd hm
    simp only [List.map_cons, List.nodup_cons] at hnd
    obtain ⟨hp_nin, hnd_t⟩ := hnd
    by_cases hp : p.1 = i
    · have ht : rankings_add t i d = t :=
        rankings_add_not_mem t i d (hp ▸ hp_nin)
      simp [rankings_add, sum_ratings, hp, ht]
      ring
    · have hm_t : i ∈ t.map Prod.fst := by
        rcases List.mem_cons.mp hm with h | h
        · exact absurd h.symm hp
        · exact h
      have hih := ih i d hnd_t hm_t
      simp only [sum_ratings] at hih
      simp [rankings_add, sum_ratings, hp, hih]
      omega

theorem record_result_sum (rs rs2 : Rankings) (w l : Int)
    (hnd : (rs.map Prod.fst).Nodup)
    (h : record_result rs w l = some rs2) :
    sum_ratings rs2 = sum_ratings rs ∧
      rs2.map Prod.fst = rs.map Prod.fst := by
  unfold record_result at h
  rcases hgw : rankings_get rs w with _ | wr
  · rw [hgw] at h; cases h
  · rcases hgl : rankings_get rs l with _ | lr
    · rw [hgw, hgl] at h; cases h
    · rw [hgw, hgl] at h
      have hrs2 : rs2 = rankings_add (rankings_add rs w (winner_delta wr lr))
          l (loser_delta wr lr) := by
        cases h; rfl
      have hw_mem : w ∈ rs.map Prod.fst := rankings_get_mem rs w wr hgw
      have hl_mem : l ∈ rs.map Prod.fst := rankings_get_mem rs l lr hgl
      have hk1 : (rankings_add rs w (winner_delta wr lr)).map Prod.fst =
          rs.map Prod.fst := rankings_add_keys rs w (winner_delta wr lr)
      have hs1 := sum_rankings_add rs w (winner_delta wr lr) hnd hw_mem
      have hs2 := sum_rankings_add (rankings_add rs w (winner_delta wr lr))
        l (loser_delta wr lr) (by rw [hk1]; exact hnd)
        (by rw [hk1]; exact hl_mem)
      constructor
      · rw [hrs2, hs2, hs1, loser_delta_neg]
        ring
      · rw [hrs2, rankings_add_keys, hk1]

theorem record_results_sum :
    ∀ (ps : List (Int × Int)) (rs rs2 : Rankings),
      (rs.map Prod.fst).Nodup → record_results rs ps = some rs2 →
      sum_ratings rs2 = sum_ratings rs := by
  intro ps
  induction ps with
  | nil =>
    intro rs rs2 _ h
    cases h
    rfl
  | cons p rest ih =>
    intro rs rs2 hnd h
    obtain ⟨w, l⟩ := p
    simp only [record_results] at h
    rcases hrr : record_result rs w l with _ | rs1
    · rw [hrr] at h; cases h
    · rw [hrr] at h
      have hs := record_result_sum rs rs1 w l hnd hrr
      have hrest := ih rs1 rs2 (by rw [hs.2]; exact hnd) h
      rw [hrest, hs.1]

theorem id_dedup_go_eq :
    ∀ (l : List Int) (seen : List Int), (∀ a ∈ l, a ∉ seen) → l.Nodup →
      id_dedup.go seen l = l := by
  intro l
  induction l with
  | nil => intro seen _ _; rfl
  | cons a t ih =>
    intro seen hdis hnd
    rw [List.nodup_cons] at hnd
    have ha : a ∉ seen := hdis a (List.mem_cons_self a t)
    rw [id_dedup.go, if_neg ha]
    congr 1
    refine ih (a :: seen) (fun b hb => ?_) hnd.2
    intro hbs
    rcases List.mem_cons.mp hbs with h | h
    · exact hnd.1 (h ▸ hb)
    · exact hdis b (List.mem_cons_of_mem a hb) h

theorem id_dedup_eq_self (l : List Int) (h : l.Nodup) : id_dedup l = l :=
  id_dedup_go_eq l [] (fun _ _ => List.not_mem_nil _) h

theorem init_rankings_keys (albums : List Int) :
    (init_rankings albums).map Prod.fst = id_dedup albums := by
  unfold init_rankings
  rw [List.map_map]
  exact List.map_id _

theorem sum_ratings_const :
    ∀ l : List Int, sum_ratings (l.map (fun a => (a, 1000))) =
      1000 * l.length := by
  intro l
  induction l with
  | nil => rfl
  | cons a t ih =>
    simp only [List.map_cons, sum_ratings, List.sum_cons] at ih ⊢
    rw [ih]
    push_cast [List.length_cons]
    ring

/-- C9: `record_result` is zero-sum (the winner's gain and the loser's
loss have equal magnitude, as `int` truncation commutes with negation),
so after `initialize(albums)` over distinct album ids the total of all
ratings stays `1000 * (number of albums)` across any sequence of
successful `record_result` calls. -/
theorem claim_C9 (albums : List Int) (ps : List (Int × Int))
    (rs2 : Rankings) (hnd : albums.Nodup)
    (h : record_results (init_rankings albums) ps = some rs2) :
    sum_ratings rs2 = 1000 * albums.length := by
  have hd : id_dedup albums = albums := id_dedup_eq_self albums hnd
  have hkeys : (init_rankings albums).map Prod.fst = albums := by
    rw [init_rankings_keys, hd]
  have hsum := record_results_sum ps (init_rankings albums) rs2
    (by rw [hkeys]; exact hnd) h
  rw [hsum]
  unfold init_rankings
  rw [hd, sum_ratings_const]

/-- Witness for C9: two albums, one recorded result; ratings become
1015 and 985, total unchanged at 2000. -/
theorem claim_C9_witness :
    sum_ratings [((1 : Int), (1015 : Int)), (2, 985)] =
      1000 * ([1, 2] : List Int).length :=
  claim_C9 [1, 2] [(1, 2)] [(1, 1015), (2, 985)] (by decide) (by
    have h0 : record_results (init_rankings [1, 2]) [(1, 2)] =
        some (rankings_add
          (rankings_add [((1 : Int), (1000 : Int)), (2, 1000)] 1
            (winner_delta 1000 1000)) 2 (loser_delta 1000 1000)) := rfl
    rw [h0, winner_delta_equal, loser_delta_equal]
    rfl)

/-- C5 counterexample: with winner rating 1400 and loser rating 1000,
the claimed `round`-based update would give the winner
`1400 + round(30/11) = 1403`, but the code (`int` truncation) gives
`1400 + 2 = 1402`; the two adjustments differ. -/
theorem claim_C5_counterexample :
    record_result [((1 : Int), (1400 : Int)), (2, 1000)] 1 2 =
        some [(1, 1402), (2, 998)] ∧
      1400 + py_round (30 * (1 - expected_winner 1400 1000)) = 1403 ∧
      1400 + (winner_delta 1400 1000 : Int) = 1402 := by
  refine ⟨?_, ?_, ?_⟩
  · have h0 : record_result [((1 : Int), (1400 : Int)), (2, 1000)] 1 2 =
        some (rankings_add
          (rankings_add [((1 : Int), (1400 : Int)), (2, 1000)] 1
            (winner_delta 1400 1000)) 2 (loser_delta 1400 1000)) := rfl
    rw [h0, winner_delta_1400_1000, loser_delta_neg, winner_delta_1400_1000]
    rfl
  · rw [expected_winner_1400_1000]
    have h2 : (30 : ℝ) * (1 - 10 / 11) = 30 / 11 := by norm_num
    rw [h2, py_round_30_11]
    norm_num
  · rw [winner_delta_1400_1000]
    norm_num

/-- C5 (amended): `record_result` updates the winner's rating by
`int(30 * (1 - expected_winner))` and the loser's by
`int(30 * (0 - expected_loser))` — truncation toward zero, not
`round` — with `expected_winner = 1 / (1 + 10 ** ((loser_rating -
winner_rating) / 400))` and `expected_loser = 1 - expected_winner`;
when both ratings are 1000 the winner gains exactly 15 and the loser
loses exactly 15. -/
theorem claim_C5 (rs : Rankings) (w l wr lr : Int) (hwl : w ≠ l)
    (hw : rankings_get rs w = some wr)
    (hl : rankings_get rs l = some lr) :
    (∃ rs2, record_result rs w l = some rs2 ∧
      rankings_get rs2 w =
        some (wr + py_int_trunc (30 * (1 - expected_winner wr lr))) ∧
      rankings_get rs2 l =
        some (lr + py_int_trunc (30 * (0 - (1 - expected_winner wr lr))))) ∧
    winner_delta 1000 1000 = 15 ∧ loser_delta 1000 1000 = -15 := by
  refine ⟨⟨rankings_add (rankings_add rs w (winner_delta wr lr)) l
      (loser_delta wr lr), ?_, ?_, ?_⟩,
    winner_delta_equal, loser_delta_equal⟩
  · unfold record_result
    rw [hw, hl]
  · rw [rankings_get_add_other _ l w (loser_delta wr lr) hwl,
      rankings_get_add_same, hw]
    rfl
  · rw [rankings_get_add_same,
      rankings_get_add_other _ w l (winner_delta wr lr)
        (fun h => hwl h.symm), hl]
    rfl

/-- Witness for C5 at two ids rated 1000 each. -/
theorem claim_C5_witness :
    (∃ rs2,
      record_result [((1 : Int), (1000 : Int)), (2, 1000)] 1 2 =
          some rs2 ∧
      rankings_get rs2 1 =
        some (1000 +
          py_int_trunc (30 * (1 - expected_winner 1000 1000))) ∧
      rankings_get rs2 2 =
        some (1000 +
          py_int_trunc (30 * (0 - (1 - expected_winner 1000 1000))))) ∧
    winner_delta 1000 1000 = 15 ∧ loser_delta 1000 1000 = -15 :=
  claim_C5 [(1, 1000), (2, 1000)] 1 2 1000 1000 (by decide) rfl rfl

/-- Witness for C6's general part at a concrete split output. -/
theorem claim_C6_witness :
    ("Simon" : String) ≠ "" ∧ py_strip "Simon" = "Simon" :=
  claim_C6.2 "Simon & Garfunkel, The War and Treaty" "Simon" (by decide)
